import Mathlib

/-!
# Verification of the `mariakit` database value codec layer

A shallow embedding of the codec types of the `types` package
(`Point`, `LineString`, `Vector[T]`, `StringArray`, `JSON[T]`) and proofs
about their `Value` (encode) and `Scan` (decode) operations.

Modelling conventions:

* Byte buffers (`[]byte`) are `List Nat`, each entry a byte value `< 256`.
* `float64` / `float32` values are represented by their IEEE-754 bit
  patterns (a `Nat` below `2^64` / `2^32`): the Go code moves coordinates
  and vector elements exclusively through `math.Float64bits/frombits`
  (resp. the 32-bit pair), which are mutually inverse bijections between
  floats and bit patterns, so bit-pattern equality coincides with the
  "bit-for-bit" float equality the properties speak about.  `int32` /
  `int64` elements are likewise represented by their two's-complement
  bit patterns via Go's `uint32(x)` / `uint64(x)` conversions.
* A value crossing the `database/sql` boundary (`interface{}` /
  `driver.Value`) is an `SQLValue`: SQL NULL, a string (its UTF-8 bytes),
  a byte buffer, or some other runtime type.
* A Go function that can return an `error`, and may also panic at run
  time (out-of-range slice expression, failed interface type assertion),
  is modelled as returning a `GoResult`: `ok`, a typed `err`, or `panic`.
-/

namespace Mariakit

/-- Error kinds produced by the codec layer, one per `fmt.Errorf` site. -/
inductive DecodeErr where
  /-- "unsupported type for ...: %T" — input is neither NULL, string nor `[]byte`. -/
  | unsupported
  /-- "WKB data too short" / "vector data too short (for dimension)". -/
  | truncated
  /-- "invalid byte order indicator: %d". -/
  | badByteOrder
  /-- "expected geometry type ..., got %d". -/
  | typeMismatch
  /-- "unknown vector element type: %d". -/
  | unknownElementType
  /-- text input does not match the expected grammar
      ("failed to parse Point from ...", "invalid vector string format",
       "failed to parse vector element", JSON unmarshal failure). -/
  | malformed
  /-- a `json.Marshal` failure (not reachable for the shapes used here). -/
  | marshalFailed
deriving DecidableEq, Repr

/-- Outcome of running a Go method: a result, a returned `error` value,
    or a run-time panic. -/
inductive GoResult (α : Type) where
  | ok (a : α)
  | err (e : DecodeErr)
  /-- the call does not return: out-of-range slice index or failed
      interface type assertion. -/
  | panic
deriving DecidableEq, Repr

/-- The runtime shapes a `Scan` argument (`interface{}` from the driver)
    can take.  `str` carries the string's bytes (`[]byte(v)` in the code;
    all inputs of interest are ASCII, where UTF-8 bytes and character
    codes agree). -/
inductive SQLValue where
  | null
  | str (b : List Nat)
  | bytes (b : List Nat)
  /-- any other runtime type — hits the `default` branch of the type switch. -/
  | other
deriving DecidableEq, Repr

/-- UTF-8/ASCII bytes of a string literal, for writing concrete inputs. -/
def asciiBytes (s : String) : List Nat := s.data.map Char.toNat

/-! ## Byte-level primitives (`encoding/binary`) -/

/-- Little-endian bytes of `x`, `w` bytes wide
    (`binary.LittleEndian.PutUintN`; the write truncates to `8*w` bits
    exactly as Go's `uint32(…)`/`uint64(…)` conversions do). -/
def le : Nat → Nat → List Nat
  | 0, _ => []
  | w + 1, x => x % 256 :: le w (x / 256)

/-- `binary.LittleEndian.UintN` on the first `w` bytes of `l`
    (byte 0 is least significant). -/
def readLE : Nat → List Nat → Nat
  | 0, _ => 0
  | w + 1, l => l.headD 0 + 256 * readLE w l.tail

/-- `binary.BigEndian.UintN` on the first `w` bytes of `l`
    (byte 0 is most significant). -/
def readBE : Nat → List Nat → Nat
  | 0, _ => 0
  | w + 1, l => l.headD 0 * 2 ^ (8 * w) + readBE w l.tail

/-- Read `w` bytes using the selected byte order (`true` = little endian). -/
def readW (little : Bool) (w : Nat) (l : List Nat) : Nat :=
  if little then readLE w l else readBE w l

/-- The byte-order indicator byte: `0` = big endian, `1` = little endian,
    anything else is rejected ("invalid byte order indicator"). -/
def byteOrderOf (b : Nat) : Option Bool :=
  if b = 0 then some false else if b = 1 then some true else none

/-! ## Point (`part_005`)

A `Point` is a pair of `float64` coordinates, held as 64-bit patterns. -/

/-- `Point{X, Y float64}` — coordinates as IEEE-754 binary64 bit patterns. -/
structure Point where
  X : Nat
  Y : Nat
deriving DecidableEq, Repr

/-- `decodePoint(byteOrder, data)` where `data` is the slice of `arr`
    that starts at `start`.  The function reads `data[0:8]` and
    `data[8:16]`; at the `LineString.Scan` call site the slice is only
    8 bytes long, so the second slice expression reaches past the
    slice's length into its capacity (the rest of `arr`) — legal Go
    when `arr` extends at least 16 bytes past `start`, and a run-time
    panic (`slice bounds out of range`) otherwise. -/
def decodePoint (little : Bool) (arr : List Nat) (start : Nat) : GoResult Point :=
  if start + 16 ≤ arr.length then
    .ok ⟨readW little 8 (arr.drop start), readW little 8 (arr.drop (start + 8))⟩
  else
    .panic

/-- `Point.Value`: the fixed 25-byte WKB layout
    `SRID(4, zero) ∥ order(1) ∥ type(4) ∥ X(8) ∥ Y(8)`, little endian,
    geometry type 1 (`WKBTypePoint`).  Never returns an error. -/
def Point.Value (p : Point) : List Nat :=
  [0, 0, 0, 0] ++ [1] ++ le 4 1 ++ le 8 p.X ++ le 8 p.Y

/-! ## Decimal-to-float conversion (`strconv.ParseFloat`)

`fmt.Sscanf`'s `%f` and `strconv.ParseFloat` convert a decimal literal to
the nearest IEEE-754 value (ties to even).  The conversion below models
that exactly for finite decimal forms; the `Inf`/`NaN`/hex-float spellings
that `strconv` also accepts never arise in this development. -/

/-- Round `a / b` (with `b > 0`) to the nearest integer, ties to even. -/
def roundHalfEven (a b : Nat) : Nat :=
  let q := a / b
  let r := a % b
  if 2 * r < b then q
  else if b < 2 * r then q + 1
  else if q % 2 = 0 then q else q + 1

/-- IEEE-754 bit pattern of the correctly rounded binary floating-point
    value nearest to `(-1)^neg * num / den`, for a format with `p`
    significand bits and `we` exponent bits (binary64: `p = 53`,
    `we = 11`; binary32: `p = 24`, `we = 8`).  Overflow gives ±Inf,
    underflow gives subnormals down to ±0. -/
def floatBitsOfRat (p we : Nat) (neg : Bool) (num den : Nat) : Nat :=
  let bias := 2 ^ (we - 1) - 1
  let signBit := if neg then 2 ^ (we + p - 1) else 0
  if num = 0 ∨ den = 0 then signBit else
  let K := 2 * bias + 2 * p
  let s := num * 2 ^ K / den
  if s = 0 then signBit else
  let e : Int := (Nat.log2 s : Int) - K
  let ulpExp : Int := max (e - (p - 1)) (1 - bias - (p - 1))
  let m :=
    if ulpExp ≤ 0 then roundHalfEven (num * 2 ^ (-ulpExp).toNat) den
    else roundHalfEven num (den * 2 ^ ulpExp.toNat)
  let m' := if 2 ^ p ≤ m then m / 2 else m
  let ulpExp' : Int := if 2 ^ p ≤ m then ulpExp + 1 else ulpExp
  if m' < 2 ^ (p - 1) then signBit + m'
  else
    let eField : Int := ulpExp' + (p - 1) + bias
    if (2 ^ we - 1 : Int) ≤ eField then signBit + (2 ^ we - 1) * 2 ^ (p - 1)
    else signBit + eField.toNat * 2 ^ (p - 1) + (m' - 2 ^ (p - 1))

/-- binary64 bits of a parsed decimal
    `(-1)^neg * digits(ip).digits(fp) * 10^(±digits(ed))`. -/
def f64OfDec (neg : Bool) (ip fp : List Nat) (expNeg : Bool) (ed : List Nat) : Nat :=
  let val := (ip ++ fp).foldl (fun a d => a * 10 + (d - 48)) 0
  let e10 := ed.foldl (fun a d => a * 10 + (d - 48)) 0
  if expNeg then floatBitsOfRat 53 11 neg val (10 ^ fp.length * 10 ^ e10)
  else floatBitsOfRat 53 11 neg (val * 10 ^ e10) (10 ^ fp.length)

/-! ## `fmt.Sscanf` (the two formats used by `Point.Scan`) -/

/-- Go's `unicode.IsSpace` restricted to ASCII (space, \t, \n, \v, \f, \r). -/
def isSpaceB (b : Nat) : Bool :=
  b = 32 || b = 9 || b = 10 || b = 11 || b = 12 || b = 13

/-- ASCII decimal digit. -/
def isDigitB (b : Nat) : Bool := 48 ≤ b && b ≤ 57

/-- A literal character in a scan format: it must match the next input
    byte exactly — literals do not skip leading whitespace. -/
def matchLit (c : Nat) : List Nat → Option (List Nat)
  | [] => none
  | b :: t => if b = c then some t else none

/-- A run of literal characters in a scan format. -/
def matchLits (cs : List Nat) (s : List Nat) : Option (List Nat) :=
  cs.foldlM (fun acc c => matchLit c acc) s

/-- The `%f` verb: skip leading whitespace, then scan a decimal float
    token (`[+-]? digits [. digits]? ([eE][+-]?digits)?`, at least one
    significand digit, a present exponent marker must be followed by a
    digit) and convert it with `strconv.ParseFloat`-rounding.  Returns
    the binary64 bit pattern and the unconsumed input. -/
def scanFloatVerb (s0 : List Nat) : Option (Nat × List Nat) :=
  let s := s0.dropWhile isSpaceB
  let (neg, s1) : Bool × List Nat :=
    match s with
    | 45 :: t => (true, t)
    | 43 :: t => (false, t)
    | _ => (false, s)
  let ip := s1.takeWhile isDigitB
  let s2 := s1.dropWhile isDigitB
  let (fp, s3) : List Nat × List Nat :=
    match s2 with
    | 46 :: t => (t.takeWhile isDigitB, t.dropWhile isDigitB)
    | _ => ([], s2)
  if ip = [] ∧ fp = [] then none
  else
    match s3 with
    | 101 :: t | 69 :: t =>
      let (expNeg, t1) : Bool × List Nat :=
        match t with
        | 45 :: u => (true, u)
        | 43 :: u => (false, u)
        | _ => (false, t)
      let ed := t1.takeWhile isDigitB
      if ed = [] then none
      else some (f64OfDec neg ip fp expNeg ed, t1.dropWhile isDigitB)
    | _ => some (f64OfDec neg ip fp false [], s3)

/-- `fmt.Sscanf(str, "POINT(%f %f)", &x, &y)`: the literal run `POINT(`,
    a float, a format space (matching any run of input spaces), a second
    float, and the literal `)`.  `none` models a non-nil scan error. -/
def sscanfPointPrimary (s : List Nat) : Option (Nat × Nat) := do
  let s1 ← matchLits [80, 79, 73, 78, 84, 40] s
  let (x, s2) ← scanFloatVerb s1
  let s3 := s2.dropWhile isSpaceB
  let (y, s4) ← scanFloatVerb s3
  let _ ← matchLit 41 s4
  some (x, y)

/-- `fmt.Sscanf(str, "%s(%f %f)", &prefix, &x, &y)`: `%s` skips leading
    whitespace and then consumes a *maximal* run of non-space bytes, so
    everything up to the next space — including any `(` and the digits
    after it — goes into the token; the literal `(` of the format is then
    matched against whatever follows that run. -/
def sscanfPointLenient (s : List Nat) : Option (List Nat × Nat × Nat) := do
  let s0 := s.dropWhile isSpaceB
  let tok := s0.takeWhile (fun b => !isSpaceB b)
  if tok = [] then none
  else
    let s1 := s0.dropWhile (fun b => !isSpaceB b)
    let s2 ← matchLit 40 s1
    let (x, s3) ← scanFloatVerb s2
    let s4 := s3.dropWhile isSpaceB
    let (y, s5) ← scanFloatVerb s4
    let _ ← matchLit 41 s5
    some (tok, x, y)

/-- The body of `Point.Scan` once the input has been reduced to a byte
    buffer `data` (both the `string` and `[]byte` arms feed this code). -/
def Point.scanBytes (p : Point) (data : List Nat) : GoResult Point :=
  -- text representation: `len(data) > 5 && (data[0] == 'P' || data[0] == 'p')`
  if 5 < data.length ∧ (data.headD 0 = 80 ∨ data.headD 0 = 112) then
    match sscanfPointPrimary data with
    | some (x, y) => .ok ⟨x, y⟩
    | none =>
      match sscanfPointLenient data with
      | some (_, x, y) => .ok ⟨x, y⟩
      | none => .err .malformed
  -- WKB: `SRID(4) ∥ order(1) ∥ type(4) ∥ X(8) ∥ Y(8)`, at least 25 bytes
  else if data.length < 25 then .err .truncated
  else
    match byteOrderOf (data.getD 4 0) with
    | none => .err .badByteOrder
    | some little =>
      if readW little 4 (data.drop 5) ≠ 1 then .err .typeMismatch
      else
        match decodePoint little data 9 with
        | .ok q => .ok q
        | .err e => .err e
        | .panic => .panic

/-- `Point.Scan`: NULL returns immediately **leaving the receiver
    unchanged** (a `Point` has no validity flag); strings and byte
    buffers are handled identically; any other runtime type is an
    "unsupported type" error. -/
def Point.Scan (p : Point) (v : SQLValue) : GoResult Point :=
  match v with
  | .null => .ok p
  | .str b => p.scanBytes b
  | .bytes b => p.scanBytes b
  | .other => .err .unsupported

/-! ## LineString (`part_005`) -/

/-- `LineString{Points []Point}`. -/
structure LineString where
  Points : List Point
deriving DecidableEq, Repr

/-- `LineString.Value`: WKB layout
    `SRID(4, zero) ∥ order(1, little) ∥ type(4) ∥ count(4) ∥ count × (X(8) ∥ Y(8))`,
    geometry type 2 (`WKBTypeLineString`); the count is written as
    `uint32(len(p.Points))`.  Never returns an error. -/
def LineString.Value (l : LineString) : List Nat :=
  [0, 0, 0, 0] ++ [1] ++ le 4 2 ++ le 4 l.Points.length
    ++ l.Points.flatMap (fun p => le 8 p.X ++ le 8 p.Y)

/-- The point-reading loop of `LineString.Scan`: for `i` ranging over the
    declared count, `points[i] = decodePoint(byteOrder, data[offset:offset+8])`
    with `offset = 13 + i*16`.  The slice expression itself panics when
    `offset+8` exceeds the buffer's capacity, and `decodePoint` panics when
    fewer than 16 bytes of capacity follow `offset` — the loop performs
    **no bounds check** against the declared count.  `k` counts the
    remaining iterations, `i` the current index. -/
def LineString.scanPoints (little : Bool) (data : List Nat) : Nat → Nat → GoResult (List Point)
  | 0, _ => .ok []
  | k + 1, i =>
    if 13 + i * 16 + 8 ≤ data.length then
      match decodePoint little data (13 + i * 16) with
      | .ok p =>
        match LineString.scanPoints little data k (i + 1) with
        | .ok ps => .ok (p :: ps)
        | r => r
      | .err e => .err e
      | .panic => .panic
    else .panic

/-- Body of `LineString.Scan` on a byte buffer: minimum 29 bytes, byte
    order from `data[4]`, geometry type must be 2, then the declared
    number of points is read and that many points are consumed. -/
def LineString.scanBytes (l : LineString) (data : List Nat) : GoResult LineString :=
  if data.length < 29 then .err .truncated
  else
    match byteOrderOf (data.getD 4 0) with
    | none => .err .badByteOrder
    | some little =>
      if readW little 4 (data.drop 5) ≠ 2 then .err .typeMismatch
      else
        match LineString.scanPoints little data (readW little 4 (data.drop 9)) 0 with
        | .ok ps => .ok ⟨ps⟩
        | .err e => .err e
        | .panic => .panic

/-- `LineString.Scan`: NULL leaves the receiver unchanged; strings and
    byte buffers are handled identically; other types are unsupported. -/
def LineString.Scan (l : LineString) (v : SQLValue) : GoResult LineString :=
  match v with
  | .null => .ok l
  | .str b => l.scanBytes b
  | .bytes b => l.scanBytes b
  | .other => .err .unsupported

/-! ## Vector (`part_006`)

`Vector[T]` is generic over `T ∈ {float32, float64, int32, int64}`; the
static element type is carried here as an explicit `ElemType` argument to
the operations.  Elements are stored as their bit patterns (`Float32bits`
/ `Float64bits` / `uint32` / `uint64` images), each below
`2^(8 * width)`. -/

/-- The four element types admitted by the `VectorElement` constraint. -/
inductive ElemType where
  | f32
  | f64
  | i32
  | i64
deriving DecidableEq, Repr

/-- The wire tag byte written for each element type
    (1=FLOAT, 2=DOUBLE, 3=INT, 4=BIGINT). -/
def ElemType.tag : ElemType → Nat
  | .f32 => 1
  | .f64 => 2
  | .i32 => 3
  | .i64 => 4

/-- Per-element byte width. -/
def ElemType.width : ElemType → Nat
  | .f32 => 4
  | .f64 => 8
  | .i32 => 4
  | .i64 => 8

/-- `Vector[T]{Data []T, Dimension int, Valid bool}` with elements as
    bit patterns. -/
structure Vector where
  Data : List Nat
  Dimension : Nat
  Valid : Bool
deriving DecidableEq, Repr

/-- `NewVector(data)`. -/
def NewVector (data : List Nat) : Vector :=
  { Data := data, Dimension := data.length, Valid := true }

/-- `Vector.Value`: NULL sentinel (`nil, nil`) when invalid **or empty**;
    otherwise `tag(1) ∥ dimension(4, uint32(len(Data))) ∥ packed elements`,
    little endian.  The element-type switch on `v.Data[0]` resolves
    statically to `ty`; the "unsupported element type" error branch is
    unreachable for the four admitted types. -/
def Vector.Value (ty : ElemType) (v : Vector) : Option (List Nat) :=
  if ¬ v.Valid ∨ v.Data = [] then none
  else some (ty.tag :: (le 4 v.Data.length ++ v.Data.flatMap (le ty.width)))

/-- The element-size switch of `Vector.Scan` on the wire tag byte. -/
def elemSizeOf (tag : Nat) : Option Nat :=
  if tag = 1 ∨ tag = 3 then some 4
  else if tag = 2 ∨ tag = 4 then some 8
  else none

/-- Binary branch of `Vector.Scan`: minimum 5 bytes, tag byte, 4-byte
    little-endian dimension, length check `len(data) ≥ 5 + dim*size`,
    then positional little-endian element reads.  Each parsed element is
    boxed with the *tag's* dynamic type and then cast back with the
    interface type assertion `elem.(T)`: when the tag does not match the
    static element type `ty` this assertion fails and **panics** on the
    first element (so only when the dimension is nonzero). -/
def Vector.scanBinary (ty : ElemType) (data : List Nat) : GoResult Vector :=
  if data.length < 5 then .err .truncated
  else
    let tag := data.headD 0
    let dim := readLE 4 (data.drop 1)
    match elemSizeOf tag with
    | none => .err .unknownElementType
    | some es =>
      if data.length < 5 + dim * es then .err .truncated
      else if tag ≠ ty.tag ∧ dim ≠ 0 then .panic
      else .ok ⟨(List.range dim).map (fun i => readLE es (data.drop (5 + i * es))), dim, true⟩

/-- `strings.TrimSpace` (ASCII): drop leading and trailing whitespace. -/
def trimSpace (s : List Nat) : List Nat :=
  ((s.dropWhile isSpaceB).reverse.dropWhile isSpaceB).reverse

/-- binary32 bits of a parsed decimal (cf. `f64OfDec`), as produced by
    `strconv.ParseFloat(part, 32)` followed by Go's `float32(f)` — the
    32-bit parse already rounds once, directly to the nearest `float32`. -/
def f32OfDec (neg : Bool) (ip fp : List Nat) (expNeg : Bool) (ed : List Nat) : Nat :=
  let val := (ip ++ fp).foldl (fun a d => a * 10 + (d - 48)) 0
  let e10 := ed.foldl (fun a d => a * 10 + (d - 48)) 0
  if expNeg then floatBitsOfRat 24 8 neg val (10 ^ fp.length * 10 ^ e10)
  else floatBitsOfRat 24 8 neg (val * 10 ^ e10) (10 ^ fp.length)

/-- `strconv.ParseFloat`'s decimal grammar, applied to the *entire*
    input: `[+-]? digits [. digits]? | [+-]? . digits`, then an optional
    exponent part; nothing may remain.  Returns the parsed pieces. -/
def parseDecFull (s : List Nat) : Option (Bool × List Nat × List Nat × Bool × List Nat) :=
  let (neg, s1) : Bool × List Nat :=
    match s with
    | 45 :: t => (true, t)
    | 43 :: t => (false, t)
    | _ => (false, s)
  let ip := s1.takeWhile isDigitB
  let s2 := s1.dropWhile isDigitB
  let (fp, s3) : List Nat × List Nat :=
    match s2 with
    | 46 :: t => (t.takeWhile isDigitB, t.dropWhile isDigitB)
    | _ => ([], s2)
  if ip = [] ∧ fp = [] then none
  else
    match s3 with
    | [] => some (neg, ip, fp, false, [])
    | 101 :: t | 69 :: t =>
      let (expNeg, t1) : Bool × List Nat :=
        match t with
        | 45 :: u => (true, u)
        | 43 :: u => (false, u)
        | _ => (false, t)
      let ed := t1.takeWhile isDigitB
      if ed = [] ∨ t1.dropWhile isDigitB ≠ [] then none
      else some (neg, ip, fp, expNeg, ed)
    | _ => none

/-- `strconv.ParseInt(s, 10, _)`: optional sign, then decimal digits
    spanning the whole input. -/
def parseIntFull (s : List Nat) : Option Int :=
  let (neg, s1) : Bool × List Nat :=
    match s with
    | 45 :: t => (true, t)
    | 43 :: t => (false, t)
    | _ => (false, s)
  if s1 = [] ∨ ¬ (s1.all fun b => isDigitB b) then none
  else
    let v : Int := s1.foldl (fun a d => a * 10 + ((d : Int) - 48)) 0
    some (if neg then -v else v)

/-- Two's-complement bit pattern (`w` bytes) of an integer, i.e. Go's
    `uint32(x)` / `uint64(x)` conversion. -/
def intPattern (w : Nat) (v : Int) : Nat := (v % ((2 ^ (8 * w) : Nat) : Int)).toNat

/-- One element of the textual vector form, parsed "based on target
    type" — the `switch any(elements[0]).(type)` in `scanFromString`
    inspects the zero value of the statically known element type, so the
    choice is a function of `ty`.  `ParseInt` fails (`ErrRange`) on
    values outside the signed 32- or 64-bit range. -/
def parseVectorElem (ty : ElemType) (part : List Nat) : Option Nat :=
  match ty with
  | .f32 => (parseDecFull part).map fun q => f32OfDec q.1 q.2.1 q.2.2.1 q.2.2.2.1 q.2.2.2.2
  | .f64 => (parseDecFull part).map fun q => f64OfDec q.1 q.2.1 q.2.2.1 q.2.2.2.1 q.2.2.2.2
  | .i32 => (parseIntFull part).bind fun v =>
      if -(2 ^ 31) ≤ v ∧ v < 2 ^ 31 then some (intPattern 4 v) else none
  | .i64 => (parseIntFull part).bind fun v =>
      if -(2 ^ 63) ≤ v ∧ v < 2 ^ 63 then some (intPattern 8 v) else none

/-- `Vector.scanFromString`: trim, require a leading `[` and trailing
    `]`, trim the interior; an empty interior yields the valid empty
    vector; otherwise split on `,`, trim and parse each part with the
    element type's parser. -/
def Vector.scanFromString (ty : ElemType) (s0 : List Nat) : GoResult Vector :=
  let s := trimSpace s0
  -- strings.HasPrefix(s, "[") && strings.HasSuffix(s, "]")
  if ¬ (s.head? = some 91 ∧ s.getLast? = some 93) then .err .malformed
  else
    let inner := trimSpace (s.drop 1).dropLast
    if inner = [] then .ok ⟨[], 0, true⟩
    else
      let parts := inner.splitOn 44
      match parts.mapM (fun part => parseVectorElem ty (trimSpace part)) with
      | some elems => .ok ⟨elems, parts.length, true⟩
      | none => .err .malformed

/-- `Vector.Scan`: NULL sets `Valid = false` **leaving `Data` and
    `Dimension` untouched**; a string goes to the text parser; a byte
    buffer to the binary parser; other types are unsupported. -/
def Vector.Scan (ty : ElemType) (v : Vector) (x : SQLValue) : GoResult Vector :=
  match x with
  | .null => .ok { v with Valid := false }
  | .str s => Vector.scanFromString ty s
  | .bytes b => Vector.scanBinary ty b
  | .other => .err .unsupported

/-! ## StringArray (`part_004`)

`type StringArray []string`.  A Go slice value is either nil or a
(possibly empty) sequence; `encoding/json` observes the difference, so
the embedding keeps it: `none` is the nil slice.  The member strings are
kept as their UTF-8 bytes. -/

/-- A `StringArray` value: `none` = the nil slice. -/
abbrev StringArray := Option (List (List Nat))

/-- Lower-case hex digit. -/
def hexDigitB (n : Nat) : Nat := if n < 10 then 48 + n else 87 + n

/-- `\u00XX` escape used by `encoding/json` for control bytes and the
    HTML-escaped characters. -/
def uEsc (b : Nat) : List Nat :=
  [92, 117, 48, 48, hexDigitB (b / 16), hexDigitB (b % 16)]

/-- `encoding/json`'s per-byte string escaping (with the default HTML
    escaping of `<`, `>`, `&`). -/
def jsonEscape (b : Nat) : List Nat :=
  if b = 34 then [92, 34]
  else if b = 92 then [92, 92]
  else if b = 60 ∨ b = 62 ∨ b = 38 then uEsc b
  else if b < 32 then
    match b with
    | 8 => [92, 98]
    | 9 => [92, 116]
    | 10 => [92, 110]
    | 12 => [92, 102]
    | 13 => [92, 114]
    | _ => uEsc b
  else [b]

/-- A JSON string literal for the byte sequence `s`. -/
def jsonQuote (s : List Nat) : List Nat :=
  34 :: s.flatMap jsonEscape ++ [34]

/-- `json.Marshal` on a `[]string`: the nil slice marshals to the four
    bytes `null`; any non-nil slice (the empty one included) marshals to
    an array literal.  Marshalling a `[]string` never returns an error. -/
def jsonMarshalStrings : StringArray → List Nat
  | none => [110, 117, 108, 108]
  | some items => 91 :: List.intercalate [44] (items.map jsonQuote) ++ [93]

/-- `StringArray.Value`: `json.Marshal(p)`; the driver value is always a
    byte buffer, never the NULL sentinel (`none` here would be SQL NULL). -/
def StringArray.Value (a : StringArray) : Option (List Nat) :=
  some (jsonMarshalStrings a)

/-- JSON insignificant whitespace. -/
def jsonWs (b : Nat) : Bool := b = 32 || b = 9 || b = 10 || b = 13

/-- Hex digit value. -/
def hexValB (b : Nat) : Option Nat :=
  if 48 ≤ b ∧ b ≤ 57 then some (b - 48)
  else if 97 ≤ b ∧ b ≤ 102 then some (b - 87)
  else if 65 ≤ b ∧ b ≤ 70 then some (b - 55)
  else none

/-- UTF-8 bytes of a BMP code point (the `\uXXXX` range). -/
def utf8Bytes (cp : Nat) : List Nat :=
  if cp < 128 then [cp]
  else if cp < 2048 then [192 + cp / 64, 128 + cp % 64]
  else [224 + cp / 4096, 128 + cp / 64 % 64, 128 + cp % 64]

/-- Body of a JSON string after the opening quote: content bytes and the
    remainder after the closing quote.  Escapes are decoded; unescaped
    control bytes are invalid.  (Astral `\u` surrogate pairs are not
    combined — they never occur in this development.)  `fuel` bounds the
    recursion by the input length. -/
def parseStrBody : Nat → List Nat → Option (List Nat × List Nat)
  | _, [] => none
  | 0, _ => none
  | fuel + 1, b :: t =>
    if b = 34 then some ([], t)
    else if b = 92 then
      match t with
      | 34 :: u => (fun r => (34 :: r.1, r.2)) <$> parseStrBody fuel u
      | 92 :: u => (fun r => (92 :: r.1, r.2)) <$> parseStrBody fuel u
      | 47 :: u => (fun r => (47 :: r.1, r.2)) <$> parseStrBody fuel u
      | 98 :: u => (fun r => (8 :: r.1, r.2)) <$> parseStrBody fuel u
      | 102 :: u => (fun r => (12 :: r.1, r.2)) <$> parseStrBody fuel u
      | 110 :: u => (fun r => (10 :: r.1, r.2)) <$> parseStrBody fuel u
      | 114 :: u => (fun r => (13 :: r.1, r.2)) <$> parseStrBody fuel u
      | 116 :: u => (fun r => (9 :: r.1, r.2)) <$> parseStrBody fuel u
      | 117 :: h1 :: h2 :: h3 :: h4 :: u => do
        let v1 ← hexValB h1
        let v2 ← hexValB h2
        let v3 ← hexValB h3
        let v4 ← hexValB h4
        (fun r => (utf8Bytes (((v1 * 16 + v2) * 16 + v3) * 16 + v4) ++ r.1, r.2)) <$>
          parseStrBody fuel u
      | _ => none
    else if b < 32 then none
    else (fun r => (b :: r.1, r.2)) <$> parseStrBody fuel t

/-- Elements of a JSON `[]string` array after the opening `[` (at least
    one element): `string (ws , ws string)* ws ]`. -/
def parseStrArrayElems : Nat → List Nat → Option (List (List Nat) × List Nat)
  | 0, _ => none
  | fuel + 1, s =>
    match s.dropWhile jsonWs with
    | 34 :: t => do
      let (str, rest) ← parseStrBody (t.length + 1) t
      match rest.dropWhile jsonWs with
      | 44 :: u => (fun r => (str :: r.1, r.2)) <$> parseStrArrayElems fuel u
      | 93 :: u => some ([str], u)
      | _ => none
    | _ => none

/-- `json.Unmarshal(data, &p)` for `p : *[]string`: the top-level value
    must be `null` (which sets the slice to nil) or an array of strings
    (an empty `[]` gives the empty non-nil slice); trailing non-space
    input is an error. -/
def jsonUnmarshalStrings (data : List Nat) : Option StringArray :=
  match data.dropWhile jsonWs with
  | 110 :: 117 :: 108 :: 108 :: rest =>
    if rest.dropWhile jsonWs = [] then some none else none
  | 91 :: t =>
    match t.dropWhile jsonWs with
    | 93 :: rest => if rest.dropWhile jsonWs = [] then some (some []) else none
    | t1 => do
      let (es, rest) ← parseStrArrayElems (t1.length + 1) t1
      if rest.dropWhile jsonWs = [] then some (some es) else none
  | _ => none

/-- `StringArray.Scan`: NULL returns immediately leaving the receiver
    unchanged; strings and byte buffers are unmarshalled as JSON. -/
def StringArray.Scan (a : StringArray) (v : SQLValue) : GoResult StringArray :=
  match v with
  | .null => .ok a
  | .str b => match jsonUnmarshalStrings b with
    | some r => .ok r
    | none => .err .malformed
  | .bytes b => match jsonUnmarshalStrings b with
    | some r => .ok r
    | none => .err .malformed
  | .other => .err .unsupported

/-! ## JSON (`types/json.go`)

`JSON[T]` is generic over an arbitrary document shape `T`; its
(un)marshalling of `T` is `encoding/json`, passed in here as explicit
serialisation functions. -/

/-- `JSON[T]{Data T, Valid bool}`. -/
structure JSON (T : Type) where
  Data : T
  Valid : Bool
deriving DecidableEq, Repr

/-- `JSON.Value`: NULL sentinel when invalid, otherwise
    `json.Marshal(p.Data)`, whose failure propagates. -/
def JSON.Value {T : Type} (marshal : T → Option (List Nat)) (p : JSON T) :
    GoResult (Option (List Nat)) :=
  if ¬ p.Valid then .ok none
  else
    match marshal p.Data with
    | some b => .ok (some b)
    | none => .err .marshalFailed

/-- `JSON.Scan`: `case nil: return nil` — NULL returns no error and
    leaves the receiver **entirely unchanged** (in particular `Valid`
    keeps its previous value); on a successful unmarshal `Valid` is set
    to true; other runtime types are unsupported. -/
def JSON.Scan {T : Type} (unmarshal : List Nat → Option T) (p : JSON T) (v : SQLValue) :
    GoResult (JSON T) :=
  match v with
  | .null => .ok p
  | .str b => match unmarshal b with
    | some d => .ok ⟨d, true⟩
    | none => .err .malformed
  | .bytes b => match unmarshal b with
    | some d => .ok ⟨d, true⟩
    | none => .err .malformed
  | .other => .err .unsupported

/-! ## Concrete inputs used by the properties -/

/-- The binary64 bit patterns of the three Central-Park path points
    `(-73.9654, 40.7829)`, `(-73.9632, 40.7845)`, `(-73.9610, 40.7861)`. -/
def centralParkPath : LineString :=
  ⟨[⟨13858277306102244285, 4630936500223345898⟩,
    ⟨13858277151291007094, 4630936725403327267⟩,
    ⟨13858276996479769903, 4630936950583308635⟩]⟩

/-- A 29-byte LineString buffer (the minimum accepted length) whose
    count field declares 2 points while only 16 bytes — one point —
    follow the header. -/
def lsOverflowBuf : List Nat := [0, 0, 0, 0, 1] ++ le 4 2 ++ le 4 2 ++ le 8 0 ++ le 8 0

/-- A well-formed 9-byte Vector buffer tagged float32 (tag 1) with
    dimension 1 — type-confused when scanned into a `Vector[int64]`. -/
def vecMismatchBuf : List Nat := [1, 1, 0, 0, 0, 0, 0, 0, 0]

/-- A `[]int32` data sequence of `2^32` zero elements: a valid vector
    this long is constructible in Go (a 16 GiB slice), and its length no
    longer fits the 4-byte dimension field of the wire format. -/
def bigData : List Nat := List.replicate (2 ^ 32) 0

/-! ## Byte-packing lemmas -/

theorem le_length (w : Nat) : ∀ x : Nat, (le w x).length = w := by
  induction w with
  | zero => intro x; rfl
  | succ k ih => intro x; simp [le, ih]

theorem drop_append_len : ∀ (l1 l2 : List Nat) (n : Nat),
    (l1 ++ l2).drop (l1.length + n) = l2.drop n
  | [], _, _ => by simp
  | a :: t, l2, n => by
    simp only [List.cons_append, List.length_cons]
    rw [show t.length + 1 + n = (t.length + n) + 1 by omega, List.drop_succ_cons]
    exact drop_append_len t l2 n

theorem readLE_le_append (w : Nat) : ∀ (x : Nat) (r : List Nat), x < 2 ^ (8 * w) →
    readLE w (le w x ++ r) = x := by
  induction w with
  | zero =>
    intro x r h
    interval_cases x
    rfl
  | succ k ih =>
    intro x r h
    have hdiv : x / 256 < 2 ^ (8 * k) := by
      rw [Nat.div_lt_iff_lt_mul (by norm_num : (0:Nat) < 256)]
      calc x < 2 ^ (8 * (k + 1)) := h
        _ = 2 ^ (8 * k) * 256 := by rw [show 8 * (k + 1) = 8 * k + 8 by ring, pow_add]; norm_num
    simp only [le, readLE, List.cons_append, List.headD_cons, List.tail_cons]
    rw [ih (x / 256) r hdiv]
    exact Nat.mod_add_div x 256

theorem readLE_le (w x : Nat) (h : x < 2 ^ (8 * w)) : readLE w (le w x) = x := by
  have := readLE_le_append w x [] h
  rwa [List.append_nil] at this

theorem flatMap_le_length (w : Nat) : ∀ l : List Nat, (l.flatMap (le w)).length = w * l.length := by
  intro l
  induction l with
  | nil => simp
  | cons a t ih => simp [List.flatMap_cons, le_length, ih, Nat.mul_succ]; ring

theorem readLE_flatMap (w : Nat) : ∀ (l : List Nat), (∀ x ∈ l, x < 2 ^ (8 * w)) →
    ∀ i, i < l.length → readLE w ((l.flatMap (le w)).drop (w * i)) = l.getD i 0 := by
  intro l
  induction l with
  | nil => intro _ i hi; simp at hi
  | cons a t ih =>
    intro h i hi
    cases i with
    | zero =>
      simp only [Nat.mul_zero, List.drop_zero, List.flatMap_cons, List.getD_cons_zero]
      exact readLE_le_append w a _ (h a (List.mem_cons_self a t))
    | succ j =>
      simp only [List.flatMap_cons, List.getD_cons_succ]
      rw [show w * (j + 1) = w + w * j by ring,
          show w + w * j = (le w a).length + w * j by rw [le_length],
          drop_append_len]
      exact ih (fun x hx => h x (List.mem_cons_of_mem a hx)) j (by simpa using hi)

theorem map_range_getD (l : List Nat) (f : Nat → Nat)
    (h : ∀ i, i < l.length → f i = l.getD i 0) :
    (List.range l.length).map f = l := by
  apply List.ext_getElem
  · simp
  · intro i h1 h2
    simp only [List.getElem_map, List.getElem_range]
    rw [h i h2, List.getD_eq_getElem l 0 h2]

/-! ## Claims -/

/-- **C2** (code bug).  The claim states that every failing decode
    returns a typed error and never panics.  The code panics on both
    cited inputs: `LineString.Scan` performs no bounds check of the
    declared point count against the buffer, so `lsOverflowBuf` (29
    bytes, count 2) hits an out-of-range slice expression at the second
    point; and `Vector[int64].Scan` on a float32-tagged buffer parses
    the element with the tag's type and then fails the `elem.(T)`
    interface assertion.  Both evaluate to `panic`, not `err`. -/
theorem C2_failing_decode_panics :
    LineString.Scan ⟨[]⟩ (.bytes lsOverflowBuf) = .panic ∧
    Vector.Scan .i64 ⟨[], 0, false⟩ (.bytes vecMismatchBuf) = .panic := by
  decide

/-- **C3** (counterexample).  `JSON.Scan` on NULL returns `nil`
    immediately without touching the receiver, so an instance that was
    already valid stays `Valid = true` — the claim's "leaves the
    instance with valid=false regardless of the instance's state before
    the call" fails on a previously-valid `JSON[T]`. -/
theorem C3_scan_null_counterexample :
    JSON.Scan (fun _ => none) (⟨0, true⟩ : JSON Nat) .null = .ok ⟨0, true⟩ ∧
    ((⟨0, true⟩ : JSON Nat)).Valid ≠ false := by
  exact ⟨rfl, by decide⟩

/-- **C3** (amended).  Decoding NULL returns no error for every codec;
    `Vector.Scan` sets `Valid := false` (leaving `Data` and `Dimension`
    untouched), while `JSON`, `Point`, `LineString` and `StringArray`
    leave the receiver entirely unchanged — so `valid = false` after the
    call is only guaranteed for `Vector`, or when the instance was
    already at its zero value. -/
theorem C3_scan_null :
    (∀ (T : Type) (u : List Nat → Option T) (p : JSON T), JSON.Scan u p .null = .ok p) ∧
    (∀ (ty : ElemType) (v : Vector),
        Vector.Scan ty v .null = .ok { v with Valid := false }) ∧
    (∀ p : Point, Point.Scan p .null = .ok p) ∧
    (∀ l : LineString, LineString.Scan l .null = .ok l) ∧
    (∀ a : StringArray, StringArray.Scan a .null = .ok a) :=
  ⟨fun _ _ _ => rfl, fun _ _ => rfl, fun _ => rfl, fun _ => rfl, fun _ => rfl⟩

/-- **C4** (code bug).  The claim states that `<token>(<x> <y>)` with a
    `P`/`p`-leading token other than `POINT` succeeds via the lenient
    `fmt.Sscanf(str, "%s(%f %f)", …)` fallback.  In Go, `%s` consumes a
    maximal run of non-space characters — here `PT(1.5` — so the
    format's literal `(` is matched against the space after `1.5` and
    the fallback fails; `Point.Scan` then returns the "failed to parse
    Point" error instead of `X=1.5, Y=2.5` (same for a lowercase
    token). -/
theorem C4_lenient_fallback_never_succeeds :
    Point.Scan ⟨0, 0⟩ (.str (asciiBytes "PT(1.5 2.5)")) = .err .malformed ∧
    Point.Scan ⟨0, 0⟩ (.str (asciiBytes "pt(1.5 2.5)")) = .err .malformed := by
  decide

/-- **C5** (counterexample).  The text `"[]"` is *not* the only input
    producing a valid-but-empty vector: a 5-byte binary buffer with a
    recognised tag and dimension 0 passes every check of the binary
    branch and yields `Valid = true, Dimension = 0, Data = []` as
    well. -/
theorem C5_vector_empty_counterexample :
    Vector.Scan .f32 ⟨[7], 1, false⟩ (.bytes [1, 0, 0, 0, 0]) = .ok ⟨[], 0, true⟩ := by
  decide

/-- **C5** (amended).  `Vector.Value` returns the NULL sentinel (with no
    error) whenever the vector is invalid or its data is empty, and
    `Vector.Scan` of the text `"[]"` succeeds with
    `Valid = true, Dimension = 0, Data = []` for every element type and
    every prior state — one way (not the only way) to obtain a
    valid-but-empty vector. -/
theorem C5_vector_empty_asymmetry :
    (∀ (ty : ElemType) (v : Vector), ¬ v.Valid ∨ v.Data = [] → Vector.Value ty v = none) ∧
    (∀ (ty : ElemType) (v₀ : Vector),
        Vector.Scan ty v₀ (.str (asciiBytes "[]")) = .ok ⟨[], 0, true⟩) := by
  constructor
  · intro ty v h
    simp only [Vector.Value, if_pos h]
  · intro ty v₀
    rfl

/-- **C5** (witness for the hypothesis of the amended claim). -/
theorem C5_vector_empty_asymmetry_witness :
    Vector.Value .f64 ⟨[4607182418800017408], 1, false⟩ = none ∧
    Vector.Scan .i32 ⟨[9], 1, true⟩ (.str (asciiBytes "[]")) = .ok ⟨[], 0, true⟩ :=
  ⟨C5_vector_empty_asymmetry.1 .f64 ⟨[4607182418800017408], 1, false⟩ (Or.inl (by decide)),
   C5_vector_empty_asymmetry.2 .i32 ⟨[9], 1, true⟩⟩

/-- **C6** (confirmed).  The three-point Central-Park path encodes to a
    61-byte WKB buffer which decodes back to exactly the same three
    points, in order, with bit-identical coordinates. -/
theorem C6_path_roundtrip :
    LineString.Scan ⟨[]⟩ (.bytes (LineString.Value centralParkPath)) = .ok centralParkPath := by
  decide

/-- **C8** (counterexample).  A nil `StringArray` — an empty list in
    Go (`len = 0`) — marshals to the four-byte JSON text `null`, which
    is not an array literal (it does not even start with `[`), refuting
    "a valid array-literal text, including `[]`, for every empty
    list". -/
theorem C8_stringlist_counterexample :
    StringArray.Value (none : StringArray) = some (asciiBytes "null") ∧
    asciiBytes "null" ≠ asciiBytes "[]" := by
  decide

/-- **C8** (amended).  `StringArray.Value` never returns the NULL
    sentinel; the *non-nil* empty list encodes to the literal `[]`,
    which decodes back to the empty list with no error (the nil slice
    instead encodes to the JSON text `null`, which decodes back to the
    nil — still empty — slice). -/
theorem C8_stringlist_empty_roundtrip :
    (∀ a : StringArray, StringArray.Value a ≠ none) ∧
    StringArray.Value (some [] : StringArray) = some (asciiBytes "[]") ∧
    (∀ a₀ : StringArray, StringArray.Scan a₀ (.bytes (asciiBytes "[]")) = .ok (some [])) ∧
    (∀ a₀ : StringArray, StringArray.Scan a₀ (.bytes (asciiBytes "null")) = .ok none) := by
  refine ⟨fun a => ?_, by decide, fun a₀ => rfl, fun a₀ => rfl⟩
  simp [StringArray.Value]

/-- **C7** (confirmed).  For every point, scanning the 25-byte buffer
    produced by `Point.Value` reproduces both coordinate bit patterns
    exactly (IEEE-754 double equality is bit-pattern equality here, as
    the coordinates only move through `Float64bits`/`Float64frombits`). -/
theorem C7_point_roundtrip (p₀ : Point) (x y : Nat) (hx : x < 2 ^ 64) (hy : y < 2 ^ 64) :
    Point.Scan p₀ (.bytes (Point.Value ⟨x, y⟩)) = .ok ⟨x, y⟩ := by
  have h64 : (2 : Nat) ^ (8 * 8) = 2 ^ 64 := by norm_num
  have hx' : readLE 8 (le 8 x ++ le 8 y) = x := readLE_le_append 8 x _ (by rw [h64]; exact hx)
  have hy' : readLE 8 (le 8 y) = y := readLE_le 8 y (by rw [h64]; exact hy)
  show GoResult.ok (⟨readLE 8 (le 8 x ++ le 8 y), readLE 8 (le 8 y)⟩ : Point)
      = .ok (⟨x, y⟩ : Point)
  rw [hx', hy']

/-- **C7** (witness): the spec's example point `(-73.9654, 40.7829)`. -/
theorem C7_point_roundtrip_witness :
    13858277306102244285 < 2 ^ 64 ∧ 4630936500223345898 < 2 ^ 64 ∧
    Point.Scan ⟨0, 0⟩ (.bytes (Point.Value ⟨13858277306102244285, 4630936500223345898⟩))
      = .ok ⟨13858277306102244285, 4630936500223345898⟩ :=
  ⟨by norm_num, by norm_num,
   C7_point_roundtrip ⟨0, 0⟩ _ _ (by norm_num) (by norm_num)⟩

/-- **C9** (confirmed).  A 24-byte binary Point buffer (first byte not
    `P`/`p`, so the text path is skipped) fails with the truncation
    error, and every 25-byte buffer with a valid endianness flag and
    geometry tag 1 under that byte order decodes successfully to the two
    coordinates it carries. -/
theorem C9_truncation_boundary :
    (∀ (p₀ : Point) (d : List Nat), d.length = 24 →
        d.headD 0 ≠ 80 → d.headD 0 ≠ 112 →
        Point.Scan p₀ (.bytes d) = .err .truncated) ∧
    (∀ (p₀ : Point) (d : List Nat) (little : Bool), d.length = 25 →
        d.headD 0 ≠ 80 → d.headD 0 ≠ 112 →
        byteOrderOf (d.getD 4 0) = some little →
        readW little 4 (d.drop 5) = 1 →
        Point.Scan p₀ (.bytes d) =
          .ok ⟨readW little 8 (d.drop 9), readW little 8 (d.drop 17)⟩) := by
  constructor
  · intro p₀ d h24 h80 h112
    have hc1 : ¬(5 < d.length ∧ (d.headD 0 = 80 ∨ d.headD 0 = 112)) := by
      rintro ⟨-, h | h⟩
      · exact h80 h
      · exact h112 h
    simp only [Point.Scan, Point.scanBytes]
    rw [if_neg hc1, if_pos (by rw [h24]; norm_num)]
  · intro p₀ d little h25 h80 h112 hbo htag
    have hc1 : ¬(5 < d.length ∧ (d.headD 0 = 80 ∨ d.headD 0 = 112)) := by
      rintro ⟨-, h | h⟩
      · exact h80 h
      · exact h112 h
    simp only [Point.Scan, Point.scanBytes]
    rw [if_neg hc1, if_neg (by rw [h25]; norm_num), hbo]
    dsimp only
    rw [if_neg (by simp [htag])]
    simp only [decodePoint]
    rw [if_pos (by rw [h25])]

/-- **C9** (witness): 24 zero bytes, and the 25-byte encoding of the
    origin point. -/
theorem C9_truncation_boundary_witness :
    Point.Scan ⟨1, 2⟩ (.bytes (List.replicate 24 0)) = .err .truncated ∧
    Point.Scan ⟨1, 2⟩ (.bytes (Point.Value ⟨0, 0⟩))
      = .ok ⟨readW true 8 ((Point.Value ⟨0, 0⟩).drop 9),
             readW true 8 ((Point.Value ⟨0, 0⟩).drop 17)⟩ :=
  ⟨C9_truncation_boundary.1 ⟨1, 2⟩ _ (by decide) (by decide) (by decide),
   C9_truncation_boundary.2 ⟨1, 2⟩ _ true (by decide) (by decide) (by decide)
     (by decide) (by decide)⟩

/-- **C10** (confirmed).  Encoding the empty path produces a 13-byte
    buffer; `LineString.Scan` rejects every buffer shorter than 29 bytes
    as truncated; hence decoding the encoding of the empty path always
    fails — the empty path never round-trips through the binary form. -/
theorem C10_empty_path_no_binary_roundtrip :
    (LineString.Value ⟨[]⟩).length = 13 ∧
    (∀ (l₀ : LineString) (d : List Nat), d.length < 29 →
        LineString.Scan l₀ (.bytes d) = .err .truncated) ∧
    (∀ l₀ : LineString, LineString.Scan l₀ (.bytes (LineString.Value ⟨[]⟩)) = .err .truncated) := by
  refine ⟨by decide, fun l₀ d h => ?_, fun l₀ => ?_⟩
  · simp only [LineString.Scan, LineString.scanBytes]
    rw [if_pos h]
  · simp only [LineString.Scan, LineString.scanBytes]
    rw [if_pos (by decide)]

/-- **C10** (witness): a 28-byte buffer. -/
theorem C10_empty_path_no_binary_roundtrip_witness :
    LineString.Scan ⟨[⟨1, 2⟩]⟩ (.bytes (List.replicate 28 5)) = .err .truncated :=
  C10_empty_path_no_binary_roundtrip.2.1 ⟨[⟨1, 2⟩]⟩ _ (by decide)

/-- **C1** (amended).  The binary round-trip law holds for every valid
    non-empty vector of each of the four element types **whose length
    fits the 4-byte dimension field** (`len(Data) < 2^32`): scanning the
    encoded buffer into a fresh vector restores the data (bit patterns,
    so bit-for-bit for floats and exact for integers), the dimension and
    `Valid = true`.  The bound is what the counterexample below forces:
    `uint32(len(v.Data))` wraps at `2^32`. -/
theorem C1_vector_binary_roundtrip (ty : ElemType) (data b : List Nat)
    (hne : data ≠ [])
    (hw : ∀ x ∈ data, x < 2 ^ (8 * ty.width))
    (hdim : data.length < 2 ^ 32)
    (henc : Vector.Value ty (NewVector data) = some b) :
    Vector.Scan ty ⟨[], 0, false⟩ (.bytes b) = .ok (NewVector data) := by
  have hb : b = ty.tag :: (le 4 data.length ++ data.flatMap (le ty.width)) := by
    rw [Vector.Value, if_neg (by simp [NewVector, hne])] at henc
    simpa [NewVector] using henc.symm
  subst hb
  have hpl : (data.flatMap (le ty.width)).length = ty.width * data.length :=
    flatMap_le_length ty.width data
  have hblen : (ty.tag :: (le 4 data.length ++ data.flatMap (le ty.width))).length
      = 5 + ty.width * data.length := by
    simp [le_length, hpl]; ring
  have hsz : elemSizeOf ty.tag = some ty.width := by cases ty <;> rfl
  have hdim' : readLE 4 (le 4 data.length ++ data.flatMap (le ty.width)) = data.length :=
    readLE_le_append 4 data.length _ (by norm_num; exact hdim)
  simp only [Vector.Scan, Vector.scanBinary, List.headD_cons, List.tail_cons,
    List.drop_succ_cons, List.drop_zero]
  rw [if_neg (by rw [hblen]; omega), hsz]
  dsimp only
  rw [hdim']
  rw [if_neg (by rw [hblen, Nat.mul_comm]; omega), if_neg (by simp)]
  have helems : (List.range data.length).map
      (fun i => readLE ty.width
        ((ty.tag :: (le 4 data.length ++ data.flatMap (le ty.width))).drop (5 + i * ty.width)))
      = data := by
    apply map_range_getD
    intro i hi
    rw [show (5 + i * ty.width) = (4 + i * ty.width) + 1 by omega, List.drop_succ_cons,
        show (4 + i * ty.width) = (le 4 data.length).length + i * ty.width by rw [le_length],
        drop_append_len, Nat.mul_comm i ty.width]
    exact readLE_flatMap ty.width data hw i hi
  rw [helems]
  rfl

/-- **C1** (witness): a two-element `Vector[float32]` (bit patterns of
    `1.0` and `2.5`). -/
theorem C1_vector_binary_roundtrip_witness :
    Vector.Scan .f32 ⟨[], 0, false⟩
        (.bytes ((Vector.Value .f32 (NewVector [1065353216, 1075838976])).getD []))
      = .ok (NewVector [1065353216, 1075838976]) :=
  C1_vector_binary_roundtrip .f32 [1065353216, 1075838976] _
    (by decide) (by decide) (by decide) (by decide)

/-- Scanning any binary buffer whose 4-byte dimension field is zero (and
    whose tag matches the static element type) succeeds with the valid
    empty vector, whatever bytes follow the header. -/
theorem scanBinary_dim0 (ty : ElemType) (P : List Nat) :
    Vector.scanBinary ty (ty.tag :: 0 :: 0 :: 0 :: 0 :: P) = .ok ⟨[], 0, true⟩ := by
  have hsz : elemSizeOf ty.tag = some ty.width := by cases ty <;> rfl
  have hlen5 : (ty.tag :: 0 :: 0 :: 0 :: 0 :: P).length = 5 + P.length := by
    simp only [List.length_cons]
    omega
  simp only [Vector.scanBinary, List.headD_cons, List.tail_cons]
  rw [if_neg (by rw [hlen5]; omega), hsz]
  dsimp only
  rw [show List.drop 1 (ty.tag :: 0 :: 0 :: 0 :: 0 :: P) = 0 :: 0 :: 0 :: 0 :: P from rfl,
      show readLE 4 (0 :: 0 :: 0 :: 0 :: P) = 0 from rfl]
  rw [if_neg (by rw [hlen5]; omega), if_neg (by simp)]
  rfl

/-- **C1** (counterexample).  A valid `Vector[int32]` of `2^32` zero
    elements: `Value` writes `uint32(2^32) = 0` into the dimension
    field, so the buffer decodes to the valid *empty* vector instead of
    the original — `decode(encode(v)) ≠ v` for this valid non-empty
    vector, refuting the unrestricted round-trip law. -/
theorem C1_vector_roundtrip_counterexample :
    Vector.Value .i32 (NewVector bigData)
      = some (3 :: (0 :: 0 :: 0 :: 0 :: bigData.flatMap (le 4))) ∧
    Vector.Scan .i32 ⟨[], 0, false⟩
        (.bytes (3 :: (0 :: 0 :: 0 :: 0 :: bigData.flatMap (le 4)))) = .ok ⟨[], 0, true⟩ ∧
    (⟨[], 0, true⟩ : Vector) ≠ NewVector bigData := by
  have hlen : bigData.length = 2 ^ 32 :=
    show (List.replicate (2 ^ 32) (0 : Nat)).length = 2 ^ 32 from List.length_replicate _ _
  have hne : bigData ≠ [] := by
    intro h
    have h0 := congrArg List.length h
    rw [hlen] at h0
    norm_num at h0
  refine ⟨?_, scanBinary_dim0 .i32 (bigData.flatMap (le 4)), ?_⟩
  · rw [Vector.Value, if_neg (by simp [NewVector, hne])]
    simp only [NewVector]
    rw [show ElemType.tag ElemType.i32 = 3 from rfl,
        show ElemType.width ElemType.i32 = 4 from rfl]
    rw [hlen, show le 4 (2 ^ 32) = [0, 0, 0, 0] by decide]
    rfl
  · intro h
    have h0 := congrArg Vector.Data h
    exact hne h0.symm
